import Mathlib

/-!
Shallow embedding of the go-fosite-mongo storage layer.

The Go code is a MongoDB-backed fosite storage driver.  We model a Mongo
collection as a `List` of records and the behaviour of the engine (unique
indexes, `InsertOne`, `ReplaceOne`, `DeleteOne`, `DeleteMany`, `FindOne`)
as pure functions over those lists, following the index configuration the
repository itself installs in `RequestManager.Configure`.  Wall-clock time
(`time.Now()`) and generated UUIDs (`uuid.NewString()`) are passed in as
explicit parameters `now` / `genId`.
-/

/-- Error taxonomy of the storage layer: `notFound` models
`fosite.ErrNotFound`, `conflict` models `storage.ErrResourceExists`
(duplicate unique key), `jtiKnown` models `fosite.ErrJTIKnown`,
`invalidatedCode` models `fosite.ErrInvalidatedAuthorizeCode`,
`deserialization` models a `json.Unmarshal` failure, and `engine` models
any other error surfaced by the backing engine. -/
inductive Err where
  | notFound
  | conflict
  | jtiKnown
  | invalidatedCode
  | deserialization
  | accessDenied
  | engine (msg : String)
deriving DecidableEq, Repr

/-- Collection name for access tokens (`storage.EntityAccessTokens`). -/
def EntityAccessTokens : String := "accesstoken"

/-- Collection name for authorization codes (`storage.EntityAuthorizationCodes`). -/
def EntityAuthorizationCodes : String := "authorizationcode"

/-- Collection name for refresh tokens (`storage.EntityRefreshTokens`). -/
def EntityRefreshTokens : String := "refreshtoken"

/-- Collection name for OpenID sessions (`storage.EntityOpenIDSessions`). -/
def EntityOpenIDSessions : String := "openidconnectsession"

/-- Collection name for PKCE sessions (`storage.EntityPKCESessions`). -/
def EntityPKCESessions : String := "pkcesession"

/-- Collection name for the JTI denylist (`storage.EntityJtiDenylist`). -/
def EntityJtiDenylist : String := "jtidenylist"

/-- Whether `RequestManager.Configure` installs a UNIQUE index on the
`signature` field of the given collection.  The source installs
`NewUniqueIndex(IdxSignatureID, "signature")` for every session collection
EXCEPT access tokens, which instead get a hashed, non-unique index
(`NewIndex(IdxSignatureID+"Hashed", "#signature")`); the code comments note
that hashed indices do not support a unique constraint. -/
def signatureUnique (entityName : String) : Bool :=
  entityName != EntityAccessTokens

/-- `storage.Request`: one stored grant/session record.  `createTime`,
`updateTime` are epoch seconds; `requestedAt` (a Go `time.Time`) is also
modelled as epoch seconds with `0` standing for the zero time; `session`
is the opaque serialized session blob (bytes). -/
structure Request where
  id : String
  createTime : Int
  updateTime : Int
  requestedAt : Int
  signature : String
  clientID : String
  userID : String
  requestedScope : List String
  grantedScope : List String
  requestedAudience : List String
  grantedAudience : List String
  form : List (String × List String)
  active : Bool
  session : List Nat
deriving DecidableEq, Repr

/-- Engine primitive: locate the first document satisfying `p`, returning
the documents before it, the document itself, and the documents after it.
This models the Mongo selection of the first matching document used by
`ReplaceOne` and `DeleteOne`. -/
def splitFirst {α : Type} (p : α → Bool) : List α → Option (List α × α × List α)
  | [] => none
  | x :: xs =>
    if p x then some ([], x, xs)
    else
      match splitFirst p xs with
      | none => none
      | some (pre, y, post) => some (x :: pre, y, post)

/-- The defaulting performed at the top of `RequestManager.Create`:
assign a generated id when `id` is empty, and stamp `createTime` /
`requestedAt` with the current time when they are zero. -/
def applyDefaults (now : Int) (genId : String) (request : Request) : Request :=
  let request := if request.id = "" then { request with id := genId } else request
  let request := if request.createTime = 0 then { request with createTime := now } else request
  let request := if request.requestedAt = 0 then { request with requestedAt := now } else request
  request

/-- Whether inserting `request` into `coll` violates a unique index of the
collection: the `id` unique index always applies; the `signature` unique
index applies only where `Configure` installed one (`signatureUnique`). -/
def uniqueKeyViolation (entityName : String) (coll : List Request) (request : Request) : Bool :=
  coll.any (fun x => x.id == request.id ||
    (signatureUnique entityName && x.signature == request.signature))

/-- `RequestManager.Create`: apply defaults, then `InsertOne`; a duplicate
key error is translated to `storage.ErrResourceExists` (Conflict).
Returns (error, created record, new collection state). -/
def RequestManager.Create (now : Int) (genId : String) (entityName : String)
    (coll : List Request) (request : Request) :
    Option Err × Option Request × List Request :=
  let request := applyDefaults now genId request
  if uniqueKeyViolation entityName coll request then
    (some Err.conflict, none, coll)
  else
    (none, some request, coll ++ [request])

/-- `RequestManager.GetBySignature`: `FindOne` on the `signature` field;
`mongo.ErrNoDocuments` is translated to `fosite.ErrNotFound`. -/
def RequestManager.GetBySignature (coll : List Request) (signature : String) :
    Except Err Request :=
  match coll.find? (fun r => r.signature == signature) with
  | none => Except.error Err.notFound
  | some r => Except.ok r

/-- `RequestManager.Get` / `getConcrete`: `FindOne` on the `id` field. -/
def RequestManager.Get (coll : List Request) (requestID : String) :
    Except Err Request :=
  match coll.find? (fun r => r.id == requestID) with
  | none => Except.error Err.notFound
  | some r => Except.ok r

/-- `RequestManager.Update`: forcibly overwrite `id` with the path
parameter, refresh `updateTime`, then `ReplaceOne` on the `id` selector.
A duplicate key error (the replacement collides with a DIFFERENT document
on a unique index) becomes Conflict; `MatchedCount == 0` becomes NotFound. -/
def RequestManager.Update (now : Int) (entityName : String) (coll : List Request)
    (requestID : String) (updatedRequest : Request) :
    Option Err × Option Request × List Request :=
  let updated := { updatedRequest with id := requestID, updateTime := now }
  match splitFirst (fun r => r.id == requestID) coll with
  | none => (some Err.notFound, none, coll)
  | some (pre, _, post) =>
    if (pre ++ post).any (fun x => x.id == updated.id ||
        (signatureUnique entityName && x.signature == updated.signature)) then
      (some Err.conflict, none, coll)
    else
      (none, some updated, pre ++ updated :: post)

/-- `RequestManager.Delete`: `DeleteOne` on the `id` selector;
`DeletedCount == 0` becomes NotFound. -/
def RequestManager.Delete (coll : List Request) (requestID : String) :
    Option Err × List Request :=
  match splitFirst (fun r => r.id == requestID) coll with
  | none => (some Err.notFound, coll)
  | some (pre, _, post) => (none, pre ++ post)

/-- The error handling inside `RequestManager.revokeToken`:
`if err != nil && err != fosite.ErrNotFound { return err }; return nil` —
a NotFound outcome of the delete is converted to success, every other
error is propagated unchanged. -/
def swallowNotFound (e : Option Err) : Option Err :=
  match e with
  | some e => if e = Err.notFound then none else some e
  | none => none

/-- `RequestManager.revokeToken`: delete by request id, treating a
NotFound outcome as success. -/
def RequestManager.revokeToken (coll : List Request) (requestID : String) :
    Option Err × List Request :=
  let (e, coll) := RequestManager.Delete coll requestID
  (swallowNotFound e, coll)

/-- The token collections touched by the revocation layer. -/
structure Store where
  accessTokens : List Request
  refreshTokens : List Request
deriving DecidableEq, Repr

/-- `RequestManager.RevokeAccessToken`: `revokeToken` on the access-token
collection. -/
def RequestManager.RevokeAccessToken (s : Store) (requestID : String) :
    Option Err × Store :=
  let (e, coll) := RequestManager.revokeToken s.accessTokens requestID
  (e, { s with accessTokens := coll })

/-- `RequestManager.RevokeRefreshToken`: `revokeToken` on the
refresh-token collection. -/
def RequestManager.RevokeRefreshToken (s : Store) (requestID : String) :
    Option Err × Store :=
  let (e, coll) := RequestManager.revokeToken s.refreshTokens requestID
  (e, { s with refreshTokens := coll })

/-- A scope condition stored under one bson query key: `$all` (the record
array must contain every listed value) or `$in` (at least one). -/
inductive ScopeCond where
  | allOf (scopes : List String)
  | inList (scopes : List String)
deriving DecidableEq, Repr

/-- The bson query built by `RequestManager.List`.  `scopes` is the query
entry for the bson field `"scopes"` (which stores `RequestedScope`);
`grantedScopes` is the entry for the bson field `"granted_scopes"` (which
stores `GrantedScope`). -/
structure Query where
  clientId : Option String
  userId : Option String
  scopes : Option ScopeCond
  grantedScopes : Option ScopeCond
deriving DecidableEq, Repr

/-- `storage.ListRequestsRequest`: filter parameters for
`RequestManager.List`.  Defaults are the Go zero values. -/
structure ListRequestsRequest where
  clientID : String := ""
  userID : String := ""
  scopesIntersection : List String := []
  scopesUnion : List String := []
  grantedScopesIntersection : List String := []
  grantedScopesUnion : List String := []
deriving DecidableEq, Repr

/-- The query construction in `RequestManager.List` (lines 198–216).
Each successive branch assigns into the same `bson.M` map, and — exactly
as in the source — the four scope branches ALL assign to the key
`"scopes"`, so later branches overwrite earlier ones and the
`"granted_scopes"` key is never populated. -/
def buildListQuery (filter : ListRequestsRequest) : Query :=
  let q : Query := { clientId := none, userId := none, scopes := none, grantedScopes := none }
  let q := if filter.clientID ≠ "" then { q with clientId := some filter.clientID } else q
  let q := if filter.userID ≠ "" then { q with userId := some filter.userID } else q
  let q := if filter.scopesIntersection ≠ [] then
    { q with scopes := some (ScopeCond.allOf filter.scopesIntersection) } else q
  let q := if filter.scopesUnion ≠ [] then
    { q with scopes := some (ScopeCond.inList filter.scopesUnion) } else q
  let q := if filter.grantedScopesIntersection ≠ [] then
    { q with scopes := some (ScopeCond.allOf filter.grantedScopesIntersection) } else q
  let q := if filter.grantedScopesUnion ≠ [] then
    { q with scopes := some (ScopeCond.inList filter.grantedScopesUnion) } else q
  q

/-- Mongo semantics of `$all` / `$in` against an array-valued field. -/
def scopeCondHolds (c : ScopeCond) (fieldValues : List String) : Bool :=
  match c with
  | ScopeCond.allOf xs => xs.all (fun s => fieldValues.contains s)
  | ScopeCond.inList xs => xs.any (fun s => fieldValues.contains s)

/-- Whether a stored record matches the built query (absent keys match
everything). -/
def matchesQuery (q : Query) (r : Request) : Bool :=
  q.clientId.all (fun c => r.clientID == c) &&
  q.userId.all (fun u => r.userID == u) &&
  q.scopes.all (fun c => scopeCondHolds c r.requestedScope) &&
  q.grantedScopes.all (fun c => scopeCondHolds c r.grantedScope)

/-- `RequestManager.List`: `Find` with the built query, returning every
matching record. -/
def RequestManager.ListRequests (coll : List Request) (filter : ListRequestsRequest) :
    List Request :=
  coll.filter (matchesQuery (buildListQuery filter))

/-- A client record as far as this layer observes it
(`ClientManager.GetClient` resolves an id to a client). -/
structure Client where
  id : String
deriving DecidableEq, Repr

/-- `ClientManager.GetClient` / `getConcrete`: `FindOne` on the client
`id`; `mongo.ErrNoDocuments` becomes `fosite.ErrNotFound`. -/
def GetClient (clients : List Client) (clientID : String) : Except Err Client :=
  match clients.find? (fun c => c.id == clientID) with
  | none => Except.error Err.notFound
  | some c => Except.ok c

/-- The shape of the caller-supplied session template (the concrete Go
type behind the `fosite.Session` interface value). -/
abbrev Template := String

/-- The decoded contents of a session blob. -/
abbrev SessionData := String

/-- An unmarshalling oracle standing for `encoding/json.Unmarshal`:
given the stored bytes and the template shape, either the decoded session
(`some`) or a decoding failure (`none`).  `Request.ToRequest` is
parameterized by it. -/
abbrev Unmarshal := List Nat → Template → Option SessionData

/-- `fosite.Request` as assembled by `Request.ToRequest`. -/
structure FositeRequest where
  client : Client
  session : Option SessionData
  id : String
  requestedAt : Int
  requestedScope : List String
  grantedScope : List String
  form : List (String × List String)
  requestedAudience : List String
  grantedAudience : List String
deriving DecidableEq, Repr

/-- `Request.ToRequest`: if a session template is supplied, unmarshal the
stored `session` bytes into it (failure is returned as a
`Deserialization` error and no request value); then resolve the client
via the Client Store (its errors, in particular NotFound, propagate);
finally assemble the `fosite.Request` from the stored fields, the decoded
session, and the resolved client. -/
def Request.ToRequest (un : Unmarshal) (clients : List Client) (r : Request)
    (template : Option Template) : Except Err FositeRequest :=
  let sess : Except Err (Option SessionData) :=
    match template with
    | some t =>
      match un r.session t with
      | none => Except.error Err.deserialization
      | some s => Except.ok (some s)
    | none => Except.ok none
  match sess with
  | Except.error e => Except.error e
  | Except.ok s =>
    match GetClient clients r.clientID with
    | Except.error e => Except.error e
    | Except.ok client =>
      Except.ok
        { client := client
          session := s
          id := r.id
          requestedAt := r.requestedAt
          requestedScope := r.requestedScope
          grantedScope := r.grantedScope
          form := r.form
          requestedAudience := r.requestedAudience
          grantedAudience := r.grantedAudience }

/-- `RequestManager.GetAuthorizeCodeSession`: fetch the stored request by
signature (the code), hydrate it via `ToRequest`, and, when the record is
inactive, return the hydrated request TOGETHER WITH the
`ErrInvalidatedAuthorizeCode` error.  The Go pair (request, err) is
modelled as `Option FositeRequest × Option Err`. -/
def RequestManager.GetAuthorizeCodeSession (un : Unmarshal) (clients : List Client)
    (coll : List Request) (code : String) (template : Option Template) :
    Option FositeRequest × Option Err :=
  match RequestManager.GetBySignature coll code with
  | Except.error e => (none, some e)
  | Except.ok req =>
    match Request.ToRequest un clients req template with
    | Except.error e => (none, some e)
    | Except.ok request =>
      if !req.active then (some request, some Err.invalidatedCode)
      else (some request, none)

/-- `RequestManager.InvalidateAuthorizeCodeSession`: fetch by signature,
flip `active` to false, refresh `updateTime`, and push the change back
through `Update`. -/
def RequestManager.InvalidateAuthorizeCodeSession (now : Int) (coll : List Request)
    (code : String) : Option Err × List Request :=
  match RequestManager.GetBySignature coll code with
  | Except.error e => (some e, coll)
  | Except.ok req =>
    let req := { req with updateTime := now, active := false }
    match RequestManager.Update now EntityAuthorizationCodes coll req.id req with
    | (some e, _, _) => (some e, coll)
    | (none, _, coll2) => (none, coll2)

/-- `storage.DeniedJTI`: one denied/used JWT ID; `signature` is derived
from the JTI, `expiry` is epoch seconds. -/
structure DeniedJTI where
  signature : String
  expiry : Int
deriving DecidableEq, Repr

/-- Modelled from the spec: `storage.SignatureFromJTI` (its body is not
among the provided sources) derives the denylist signature
"deterministically from the JTI value"; it is modelled as the identity,
which is deterministic and collision-free like the real derivation. -/
def SignatureFromJTI (jti : String) : String := jti

/-- Modelled from the spec: `storage.NewDeniedJTI` (its body is not among
the provided sources) builds the record from the derived signature and
the expiry of the assertion in epoch seconds. -/
def NewDeniedJTI (jti : String) (exp : Int) : DeniedJTI :=
  { signature := SignatureFromJTI jti, expiry := exp }

/-- `DeniedJtiManager.Create` (persistent layer): `InsertOne` against the
unique `signature` index; a duplicate key error becomes
`storage.ErrResourceExists` (Conflict). -/
def DeniedJtiManager.Create (coll : List DeniedJTI) (deniedJTI : DeniedJTI) :
    Option Err × List DeniedJTI :=
  if coll.any (fun x => x.signature == deniedJTI.signature) then
    (some Err.conflict, coll)
  else
    (none, coll ++ [deniedJTI])

/-- `DeniedJtiManager.DeleteBefore` (persistent layer): `DeleteMany` with
the filter `exp < time.Now().Unix()` — note the filter uses the CURRENT
CLOCK, not the `expBefore` argument, which is only logged.  Returns
NotFound when `DeletedCount == 0`. -/
def DeniedJtiManager.DeleteBefore (now : Int) (coll : List DeniedJTI)
    (expBefore : Int) : Option Err × List DeniedJTI :=
  let deleted := coll.filter (fun d => d.expiry < now)
  let remaining := coll.filter (fun d => !(d.expiry < now))
  if deleted.length = 0 then (some Err.notFound, coll)
  else (none, remaining)

/-- `ClientManager.SetClientAssertionJWT` (persistent layer): first
`DeleteBefore(now)` to sweep expired entries; the `switch` on its error
does `case fosite.ErrNotFound: return` — a naked return of the NAMED
result `err`, which still holds `fosite.ErrNotFound`, so a zero-deletion
sweep aborts the call with NotFound before the insert.  Otherwise insert
the new entry, translating a duplicate (`storage.ErrResourceExists`) into
`fosite.ErrJTIKnown`. -/
def ClientManager.SetClientAssertionJWT (now : Int) (deniedJTIs : List DeniedJTI)
    (jti : String) (exp : Int) : Option Err × List DeniedJTI :=
  let (err, coll) := DeniedJtiManager.DeleteBefore now deniedJTIs now
  match err with
  | some e =>
    if e = Err.notFound then (some Err.notFound, coll)
    else (some e, coll)
  | none =>
    let (err2, coll2) := DeniedJtiManager.Create coll (NewDeniedJTI jti exp)
    match err2 with
    | some e =>
      if e = Err.conflict then (some Err.jtiKnown, coll2)
      else (some e, coll2)
    | none => (none, coll2)

/-- `DeniedJtiManager.SetClientAssertionJWT` (in-memory layer): under the
write lock, sweep every map entry whose expiry is before `now`, fail with
`fosite.ErrJTIKnown` when `jti` survives the sweep, otherwise insert
`jti ↦ exp`.  The Go `map[string]time.Time` is modelled as an association
list of (jti, expiry-epoch-seconds) pairs. -/
def DeniedJtiManager.SetClientAssertionJWT (now : Int) (m : List (String × Int))
    (jti : String) (exp : Int) : Option Err × List (String × Int) :=
  let m := m.filter (fun p => !(p.2 < now))
  if m.any (fun p => p.1 == jti) then (some Err.jtiKnown, m)
  else (none, m ++ [(jti, exp)])

/-- `DeniedJtiManager.ClientAssertionJWTValid` (in-memory layer): fail
with `fosite.ErrJTIKnown` when the map holds an entry for `jti` whose
expiry is after `now`. -/
def DeniedJtiManager.ClientAssertionJWTValid (now : Int) (m : List (String × Int))
    (jti : String) : Option Err :=
  match m.find? (fun p => p.1 == jti) with
  | some p => if now < p.2 then some Err.jtiKnown else none
  | none => none

/-! Helper lemmas about the engine primitives. -/

theorem splitFirst_eq_none_iff {α : Type} (p : α → Bool) :
    ∀ l : List α, splitFirst p l = none ↔ ∀ x ∈ l, p x = false
  | [] => by simp [splitFirst]
  | x :: xs => by
    by_cases h : p x
    · simp [splitFirst, h]
    · rw [splitFirst]
      rw [if_neg (by simp [h])]
      cases hs : splitFirst p xs with
      | none =>
        have hall := (splitFirst_eq_none_iff p xs).mp hs
        have hx : p x = false := Bool.not_eq_true _ ▸ h
        simp only [List.mem_cons]
        constructor
        · intro _ z hz
          rcases hz with hz | hz
          · subst hz; exact hx
          · exact hall z hz
        · intro _; trivial
      | some t =>
        have hne : ¬ ∀ y ∈ xs, p y = false := by
          intro hall
          rw [(splitFirst_eq_none_iff p xs).mpr hall] at hs
          cases hs
        obtain ⟨pre, y, post⟩ := t
        simp only [List.mem_cons]
        constructor
        · intro hc; cases hc
        · intro hall
          exact absurd (fun z hz => hall z (Or.inr hz)) hne

theorem splitFirst_spec {α : Type} (p : α → Bool) :
    ∀ (l pre : List α) (y : α) (post : List α),
      splitFirst p l = some (pre, y, post) →
      l = pre ++ y :: post ∧ p y = true ∧ ∀ x ∈ pre, p x = false
  | [], pre, y, post => by intro h; cases h
  | x :: xs, pre, y, post => by
    intro h
    by_cases hx : p x
    · rw [splitFirst, if_pos hx] at h
      cases h
      exact ⟨rfl, hx, by simp⟩
    · rw [splitFirst, if_neg (by simp [hx])] at h
      cases hs : splitFirst p xs with
      | none => rw [hs] at h; cases h
      | some t =>
        obtain ⟨pre2, y2, post2⟩ := t
        rw [hs] at h
        injection h with h
        injection h with h1 h2
        injection h2 with h2 h3
        obtain ⟨heq, hy, hpre⟩ := splitFirst_spec p xs pre2 y2 post2 hs
        rw [← h1, ← h2, ← h3]
        refine ⟨?_, hy, ?_⟩
        · rw [heq]; rfl
        · intro z hz
          rcases List.mem_cons.mp hz with hz | hz
          · subst hz; exact Bool.not_eq_true _ ▸ hx
          · exact hpre z hz

theorem splitFirst_isSome_of_mem {α : Type} (p : α → Bool) (l : List α) (x : α)
    (hx : x ∈ l) (hp : p x = true) :
    ∃ pre y post, splitFirst p l = some (pre, y, post) := by
  cases hs : splitFirst p l with
  | none =>
    have := (splitFirst_eq_none_iff p l).mp hs x hx
    rw [hp] at this; cases this
  | some t => exact ⟨t.1, t.2.1, t.2.2, rfl⟩

theorem find?_append_cons {α : Type} (p : α → Bool) :
    ∀ (pre : List α) (y : α) (post : List α),
      (∀ x ∈ pre, p x = false) → p y = true →
      List.find? p (pre ++ y :: post) = some y
  | [], y, post => by
    intro _ hy
    simpa using List.find?_cons_of_pos post hy
  | a :: as, y, post => by
    intro hpre hy
    have ha : ¬ p a = true := by simp [hpre a (List.mem_cons_self a as)]
    rw [List.cons_append, List.find?_cons_of_neg _ ha]
    exact find?_append_cons p as y post (fun x hx => hpre x (List.mem_cons_of_mem a hx)) hy

/-- In a list whose image under `f` has no duplicates, the documents
outside the first `f`-match cannot share its `f`-value. -/
theorem nodup_map_split {α β : Type} (f : α → β) (pre : List α) (y : α) (post : List α)
    (h : ((pre ++ y :: post).map f).Nodup) :
    ∀ x, x ∈ pre ++ post → f x ≠ f y := by
  intro x hx he
  rw [List.map_append, List.map_cons, List.nodup_append] at h
  rcases List.mem_append.mp hx with hx | hx
  · exact (List.disjoint_left.mp h.2.2) (List.mem_map_of_mem f hx)
      (by rw [he]; exact List.mem_cons_self _ _)
  · have := (List.nodup_cons.mp h.2.1).1
    exact this (he ▸ List.mem_map_of_mem f hx)

theorem mem_of_mem_splitParts {α : Type} {pre post : List α} {y x : α}
    (hx : x ∈ pre ++ post) : x ∈ pre ++ y :: post := by
  rcases List.mem_append.mp hx with hx | hx
  · exact List.mem_append.mpr (Or.inl hx)
  · exact List.mem_append.mpr (Or.inr (List.mem_cons_of_mem y hx))

theorem mem_splitParts_of_ne {α : Type} {pre post : List α} {y x : α}
    (hx : x ∈ pre ++ y :: post) (hne : x ≠ y) : x ∈ pre ++ post := by
  rcases List.mem_append.mp hx with hx | hx
  · exact List.mem_append.mpr (Or.inl hx)
  · rcases List.mem_cons.mp hx with hx | hx
    · exact absurd hx hne
    · exact List.mem_append.mpr (Or.inr hx)

/-! Claim theorems. -/

/-- Claim C1: The claim states that for a JTI not already denied,
`ClientManager.SetClientAssertionJWT` deletes expired entries, inserts
the new entry and succeeds, failing with `JTIKnown` exactly on a
uniqueness violation.  The code diverges: when the expiry sweep deletes
zero entries (`DeleteBefore` returns `fosite.ErrNotFound`), the naked
`return` inside the error switch propagates that NotFound and the insert
never happens — on an empty denylist the call fails with NotFound and
stores nothing (first two conjuncts); the insert only happens when some
unrelated expired entry was swept (third conjunct). -/
theorem setClientAssertionJWT_aborts_when_sweep_deletes_nothing :
    ClientManager.SetClientAssertionJWT 1000 [] "abc" 1060 = (some Err.notFound, []) ∧
    ClientManager.SetClientAssertionJWT 1000 [{ signature := "other", expiry := 2000 }] "abc" 1060 =
      (some Err.notFound, [{ signature := "other", expiry := 2000 }]) ∧
    ClientManager.SetClientAssertionJWT 1000 [{ signature := "old", expiry := 500 }] "abc" 1060 =
      (none, [{ signature := "abc", expiry := 1060 }]) := by
  refine ⟨?_, ?_, ?_⟩ <;> decide

/-- Claim C4: The claim states that a granted-scope filter selects on the
granted-scope field without affecting a simultaneously supplied
requested-scope filter.  The code diverges: all four scope branches of
`RequestManager.List` assign to the bson key `"scopes"` (the
requested-scope field), so the `"granted_scopes"` query key is never
populated (first two conjuncts), a record whose GRANTED scopes match the
granted-scope filter is not returned because the filter is applied to its
requested scopes (third conjunct), and a granted-scope filter overwrites
a simultaneously supplied requested-scope filter (fourth conjunct). -/
theorem list_granted_scope_filter_queries_requested_scopes :
    (buildListQuery { grantedScopesUnion := ["B"] }).grantedScopes = none ∧
    (buildListQuery { grantedScopesUnion := ["B"] }).scopes =
      some (ScopeCond.inList ["B"]) ∧
    (RequestManager.ListRequests
        [{ id := "1", createTime := 1, updateTime := 0, requestedAt := 1, signature := "s1",
           clientID := "c", userID := "u", requestedScope := ["A"], grantedScope := ["B"],
           requestedAudience := [], grantedAudience := [], form := [], active := true,
           session := [] }]
        { grantedScopesUnion := ["B"] } = [] ∧
      ["B"].contains "B" = true) ∧
    (RequestManager.ListRequests
        [{ id := "1", createTime := 1, updateTime := 0, requestedAt := 1, signature := "s1",
           clientID := "c", userID := "u", requestedScope := ["A"], grantedScope := ["B"],
           requestedAudience := [], grantedAudience := [], form := [], active := true,
           session := [] }]
        { scopesIntersection := ["A"], grantedScopesUnion := ["B"] } = [] ∧
      buildListQuery { scopesIntersection := ["A"], grantedScopesUnion := ["B"] } =
        buildListQuery { grantedScopesUnion := ["B"] }) := by
  refine ⟨?_, ?_, ⟨?_, ?_⟩, ⟨?_, ?_⟩⟩ <;> decide

/-- Counterexample to claim C2: In the access-token collection — whose
signature index is hashed and not unique — a second `Create` with an
already-stored signature does NOT fail with Conflict: it succeeds and a
second record is stored. -/
theorem create_access_token_duplicate_signature_succeeds :
    (RequestManager.Create 200 "g2" EntityAccessTokens
        [{ id := "1", createTime := 100, updateTime := 0, requestedAt := 100,
           signature := "sig", clientID := "c", userID := "u", requestedScope := [],
           grantedScope := [], requestedAudience := [], grantedAudience := [], form := [],
           active := true, session := [] }]
        { id := "2", createTime := 200, updateTime := 0, requestedAt := 200,
          signature := "sig", clientID := "c", userID := "u", requestedScope := [],
          grantedScope := [], requestedAudience := [], grantedAudience := [], form := [],
          active := true, session := [] }).1 = none ∧
    (RequestManager.Create 200 "g2" EntityAccessTokens
        [{ id := "1", createTime := 100, updateTime := 0, requestedAt := 100,
           signature := "sig", clientID := "c", userID := "u", requestedScope := [],
           grantedScope := [], requestedAudience := [], grantedAudience := [], form := [],
           active := true, session := [] }]
        { id := "2", createTime := 200, updateTime := 0, requestedAt := 200,
          signature := "sig", clientID := "c", userID := "u", requestedScope := [],
          grantedScope := [], requestedAudience := [], grantedAudience := [], form := [],
          active := true, session := [] }).2.2.length = 2 := by
  refine ⟨?_, ?_⟩ <;> decide

/-- Claim C9: The in-memory `DeniedJtiManager.SetClientAssertionJWT` first
sweeps every map entry whose expiry is strictly before `now`; it fails
with `JTIKnown` precisely when `jti` survives the sweep (i.e. it is
present with an unexpired expiry), leaving the swept map unchanged, and
otherwise inserts `jti ↦ exp` into the swept map and succeeds. -/
theorem memory_setClientAssertionJWT_sweeps_then_inserts :
    (∀ (now : Int) (m : List (String × Int)) (jti : String) (exp : Int),
      (∃ e, (jti, e) ∈ m ∧ ¬ e < now) →
      DeniedJtiManager.SetClientAssertionJWT now m jti exp =
        (some Err.jtiKnown, m.filter (fun p => !(p.2 < now)))) ∧
    (∀ (now : Int) (m : List (String × Int)) (jti : String) (exp : Int),
      (∀ e, (jti, e) ∈ m → e < now) →
      DeniedJtiManager.SetClientAssertionJWT now m jti exp =
        (none, m.filter (fun p => !(p.2 < now)) ++ [(jti, exp)])) := by
  constructor
  · intro now m jti exp ⟨e, hmem, hexp⟩
    have hany : (m.filter (fun p => !(p.2 < now))).any (fun p => p.1 == jti) = true := by
      rw [List.any_eq_true]
      refine ⟨(jti, e), List.mem_filter.mpr ⟨hmem, by simp [hexp]⟩, by simp⟩
    unfold DeniedJtiManager.SetClientAssertionJWT
    simp only [hany, if_true]
  · intro now m jti exp hall
    have hany : (m.filter (fun p => !(p.2 < now))).any (fun p => p.1 == jti) = false := by
      rw [Bool.eq_false_iff]
      intro hc
      obtain ⟨p, hp, hjti⟩ := List.any_eq_true.mp hc
      obtain ⟨hpm, hpe⟩ := List.mem_filter.mp hp
      have : p.1 = jti := by simpa using hjti
      have hlt := hall p.2 (by rw [← this]; exact hpm)
      simp [hlt] at hpe
    unfold DeniedJtiManager.SetClientAssertionJWT
    simp only [hany, Bool.false_eq_true, if_false]

/-- Witness for claim C9: A concrete run: the map holds an unexpired entry
for "a" and an expired entry for "b"; re-asserting "a" fails with
`JTIKnown` and the expired entry is swept. -/
theorem memory_setClientAssertionJWT_witness :
    (("a", (100 : Int)) ∈ [("a", (100 : Int)), ("b", (1 : Int))] ∧ ¬ (100 : Int) < 50) ∧
    DeniedJtiManager.SetClientAssertionJWT 50 [("a", 100), ("b", 1)] "a" 999 =
      (some Err.jtiKnown, [("a", 100)]) := by
  constructor
  · exact ⟨by decide, by decide⟩
  · exact memory_setClientAssertionJWT_sweeps_then_inserts.1 50 [("a", 100), ("b", 1)] "a" 999
      ⟨100, by decide, by decide⟩

/-- Claim C10: `DeniedJtiManager.DeleteBefore(cutoff)` compares each
entry's expiry to the current clock, not to `cutoff`: the result is
independent of the cutoff argument (first conjunct); it returns NotFound
exactly when no stored entry is expired at the current clock (second
conjunct); and when some entry is expired it succeeds and keeps exactly
the unexpired entries (third conjunct). -/
theorem deleteBefore_ignores_cutoff_and_notFound_on_zero :
    (∀ (now : Int) (coll : List DeniedJTI) (a b : Int),
      DeniedJtiManager.DeleteBefore now coll a = DeniedJtiManager.DeleteBefore now coll b) ∧
    (∀ (now : Int) (coll : List DeniedJTI) (cutoff : Int),
      (DeniedJtiManager.DeleteBefore now coll cutoff).1 = some Err.notFound ↔
        ∀ d ∈ coll, ¬ d.expiry < now) ∧
    (∀ (now : Int) (coll : List DeniedJTI) (cutoff : Int),
      (∃ d ∈ coll, d.expiry < now) →
      DeniedJtiManager.DeleteBefore now coll cutoff =
        (none, coll.filter (fun d => !(d.expiry < now)))) := by
  refine ⟨fun now coll a b => rfl, ?_, ?_⟩
  · intro now coll cutoff
    unfold DeniedJtiManager.DeleteBefore
    by_cases h : (coll.filter (fun d => d.expiry < now)).length = 0
    · rw [if_pos h]
      have hnil := List.length_eq_zero.mp h
      simp only [true_iff]
      intro d hd hlt
      have : d ∈ coll.filter (fun d => d.expiry < now) :=
        List.mem_filter.mpr ⟨hd, by simp [hlt]⟩
      rw [hnil] at this
      cases this
    · rw [if_neg h]
      constructor
      · intro hc; cases hc
      · intro hall
        exfalso
        apply h
        rw [List.length_eq_zero, List.filter_eq_nil_iff]
        intro d hd
        simp [hall d hd]
  · intro now coll cutoff ⟨d, hd, hlt⟩
    unfold DeniedJtiManager.DeleteBefore
    have h : (coll.filter (fun d => d.expiry < now)).length ≠ 0 := by
      intro hc
      have hnil := List.length_eq_zero.mp hc
      have : d ∈ coll.filter (fun d => d.expiry < now) :=
        List.mem_filter.mpr ⟨hd, by simp [hlt]⟩
      rw [hnil] at this
      cases this
    rw [if_neg h]

/-- Witness for claim C10: A concrete run: with `now = 100`, an entry that
expired at 10 is removed whatever cutoff is passed, and a denylist with
no expired entry yields NotFound. -/
theorem deleteBefore_witness :
    ({ signature := "x", expiry := (10 : Int) } : DeniedJTI) ∈
      [({ signature := "x", expiry := (10 : Int) } : DeniedJTI)] ∧
    DeniedJtiManager.DeleteBefore 100 [{ signature := "x", expiry := 10 }] 0 =
      (none, []) ∧
    (DeniedJtiManager.DeleteBefore 100 [{ signature := "y", expiry := 500 }] 77).1 =
      some Err.notFound := by
  refine ⟨by decide, ?_, ?_⟩
  · exact (deleteBefore_ignores_cutoff_and_notFound_on_zero.2.2) 100
      [{ signature := "x", expiry := 10 }] 0 ⟨{ signature := "x", expiry := 10 }, by decide, by decide⟩
  · exact (deleteBefore_ignores_cutoff_and_notFound_on_zero.2.1 100
      [{ signature := "y", expiry := 500 }] 77).mpr (by decide)

/-- Claim C5: Revocation is idempotent: revoking an id with no stored
record succeeds (conjuncts 1 and 3), two successive revocations of the
same id both succeed (conjuncts 2 and 4), and the error handling of
`revokeToken` converts only the NotFound outcome of the delete to
success, propagating every other deletion error unchanged (conjunct 5). -/
theorem revocation_idempotent :
    (∀ (s : Store) (requestID : String),
      (∀ r ∈ s.accessTokens, r.id ≠ requestID) →
      RequestManager.RevokeAccessToken s requestID = (none, s)) ∧
    (∀ (s : Store) (requestID : String),
      (RequestManager.RevokeAccessToken s requestID).1 = none ∧
      (RequestManager.RevokeAccessToken (RequestManager.RevokeAccessToken s requestID).2
        requestID).1 = none) ∧
    (∀ (s : Store) (requestID : String),
      (∀ r ∈ s.refreshTokens, r.id ≠ requestID) →
      RequestManager.RevokeRefreshToken s requestID = (none, s)) ∧
    (∀ (s : Store) (requestID : String),
      (RequestManager.RevokeRefreshToken s requestID).1 = none ∧
      (RequestManager.RevokeRefreshToken (RequestManager.RevokeRefreshToken s requestID).2
        requestID).1 = none) ∧
    (∀ e : Err, e ≠ Err.notFound → swallowNotFound (some e) = some e) := by
  have hrevoke : ∀ (coll : List Request) (requestID : String),
      (RequestManager.revokeToken coll requestID).1 = none := by
    intro coll requestID
    unfold RequestManager.revokeToken RequestManager.Delete
    cases hs : splitFirst (fun r => r.id == requestID) coll with
    | none => simp [swallowNotFound]
    | some t => obtain ⟨pre, y, post⟩ := t; simp [swallowNotFound]
  have hmiss : ∀ (coll : List Request) (requestID : String),
      (∀ r ∈ coll, r.id ≠ requestID) →
      RequestManager.revokeToken coll requestID = (none, coll) := by
    intro coll requestID hall
    have hnone : splitFirst (fun r => r.id == requestID) coll = none := by
      rw [splitFirst_eq_none_iff]
      intro x hx
      simp [hall x hx]
    unfold RequestManager.revokeToken RequestManager.Delete
    rw [hnone]
    simp [swallowNotFound]
  refine ⟨?_, ?_, ?_, ?_, ?_⟩
  · intro s requestID hall
    unfold RequestManager.RevokeAccessToken
    rw [hmiss s.accessTokens requestID hall]
  · intro s requestID
    constructor
    · unfold RequestManager.RevokeAccessToken
      rw [Prod.fst]
      exact hrevoke s.accessTokens requestID
    · unfold RequestManager.RevokeAccessToken
      exact hrevoke _ requestID
  · intro s requestID hall
    unfold RequestManager.RevokeRefreshToken
    rw [hmiss s.refreshTokens requestID hall]
  · intro s requestID
    constructor
    · unfold RequestManager.RevokeRefreshToken
      exact hrevoke s.refreshTokens requestID
    · unfold RequestManager.RevokeRefreshToken
      exact hrevoke _ requestID
  · intro e he
    simp [swallowNotFound, he]

/-- Witness for claim C5: Revoking the id "nope", absent from an empty
store, succeeds and leaves the store unchanged. -/
theorem revocation_idempotent_witness :
    (∀ r ∈ ({ accessTokens := [], refreshTokens := [] } : Store).accessTokens,
      r.id ≠ "nope") ∧
    RequestManager.RevokeAccessToken { accessTokens := [], refreshTokens := [] } "nope" =
      (none, { accessTokens := [], refreshTokens := [] }) := by
  constructor
  · intro r hr; cases hr
  · exact revocation_idempotent.1 { accessTokens := [], refreshTokens := [] } "nope"
      (fun r hr => by cases hr)

/-- Claim C8: `Request.ToRequest` fails with `Deserialization` — returning
no request value — whenever the stored session bytes do not unmarshal
into the supplied template (conjunct 1); it fails with `NotFound` when
the `clientID` of the record does not resolve in the Client Store
(conjunct 2); and on success it carries the stored id, scopes,
audiences, form, the decoded session, and the resolved client
(conjunct 3). -/
theorem toRequest_hydration_contract :
    (∀ (un : Unmarshal) (clients : List Client) (r : Request) (t : Template),
      un r.session t = none →
      Request.ToRequest un clients r (some t) = Except.error Err.deserialization) ∧
    (∀ (un : Unmarshal) (clients : List Client) (r : Request) (t : Template)
        (s : SessionData),
      un r.session t = some s →
      (∀ c ∈ clients, c.id ≠ r.clientID) →
      Request.ToRequest un clients r (some t) = Except.error Err.notFound) ∧
    (∀ (un : Unmarshal) (clients : List Client) (r : Request) (t : Template)
        (s : SessionData) (c : Client),
      un r.session t = some s →
      GetClient clients r.clientID = Except.ok c →
      Request.ToRequest un clients r (some t) = Except.ok
        { client := c, session := some s, id := r.id, requestedAt := r.requestedAt,
          requestedScope := r.requestedScope, grantedScope := r.grantedScope,
          form := r.form, requestedAudience := r.requestedAudience,
          grantedAudience := r.grantedAudience }) := by
  refine ⟨?_, ?_, ?_⟩
  · intro un clients r t hun
    simp [Request.ToRequest, hun]
  · intro un clients r t s hun hall
    have hc : clients.find? (fun c => c.id == r.clientID) = none := by
      rw [List.find?_eq_none]
      intro c hc
      simp [hall c hc]
    simp [Request.ToRequest, GetClient, hun, hc]
  · intro un clients r t s c hun hc
    simp [Request.ToRequest, hun, hc]

/-- Witness for claim C8: A concrete run: bytes `[7]` do not decode with
template "other" (hydration fails with `Deserialization`), while with
template "shape" they decode to "sess" and the client "c1" resolves. -/
theorem toRequest_hydration_witness :
    ((fun (b : List Nat) (t : Template) =>
        if b = [7] ∧ t = "shape" then some "sess" else none)
      ([7] : List Nat) ("other" : Template) = none) ∧
    Request.ToRequest
      (fun (b : List Nat) (t : Template) =>
        if b = [7] ∧ t = "shape" then some "sess" else none)
      [{ id := "c1" }]
      { id := "r1", createTime := 1, updateTime := 0, requestedAt := 2, signature := "sig",
        clientID := "c1", userID := "u", requestedScope := ["read"], grantedScope := ["read"],
        requestedAudience := ["api"], grantedAudience := ["api"], form := [], active := true,
        session := [7] }
      (some "other") = Except.error Err.deserialization ∧
    Request.ToRequest
      (fun (b : List Nat) (t : Template) =>
        if b = [7] ∧ t = "shape" then some "sess" else none)
      [{ id := "c1" }]
      { id := "r1", createTime := 1, updateTime := 0, requestedAt := 2, signature := "sig",
        clientID := "c1", userID := "u", requestedScope := ["read"], grantedScope := ["read"],
        requestedAudience := ["api"], grantedAudience := ["api"], form := [], active := true,
        session := [7] }
      (some "shape") = Except.ok
        { client := { id := "c1" }, session := some "sess", id := "r1", requestedAt := 2,
          requestedScope := ["read"], grantedScope := ["read"], form := [],
          requestedAudience := ["api"], grantedAudience := ["api"] } := by
  refine ⟨by decide, ?_, ?_⟩
  · exact toRequest_hydration_contract.1
      (fun b t => if b = [7] ∧ t = "shape" then some "sess" else none)
      [{ id := "c1" }]
      { id := "r1", createTime := 1, updateTime := 0, requestedAt := 2, signature := "sig",
        clientID := "c1", userID := "u", requestedScope := ["read"], grantedScope := ["read"],
        requestedAudience := ["api"], grantedAudience := ["api"], form := [], active := true,
        session := [7] }
      "other" (by decide)
  · exact toRequest_hydration_contract.2.2
      (fun b t => if b = [7] ∧ t = "shape" then some "sess" else none)
      [{ id := "c1" }]
      { id := "r1", createTime := 1, updateTime := 0, requestedAt := 2, signature := "sig",
        clientID := "c1", userID := "u", requestedScope := ["read"], grantedScope := ["read"],
        requestedAudience := ["api"], grantedAudience := ["api"], form := [], active := true,
        session := [7] }
      "shape" "sess" { id := "c1" } (by decide) (by rfl)

/-- Closed form of `applyDefaults`: each field is defaulted
independently and every other field is untouched. -/
theorem applyDefaults_spec (now : Int) (genId : String) (request : Request) :
    applyDefaults now genId request =
      { request with
          id := if request.id = "" then genId else request.id
          createTime := if request.createTime = 0 then now else request.createTime
          requestedAt := if request.requestedAt = 0 then now else request.requestedAt } := by
  unfold applyDefaults
  by_cases h1 : request.id = "" <;> by_cases h2 : request.createTime = 0 <;>
    by_cases h3 : request.requestedAt = 0 <;> simp [h1, h2, h3]

/-- Claim C2 (amended): In every collection whose signature index is
unique — every session collection except access tokens — creating a
record whose (defaulted) signature is already stored fails with Conflict
and leaves the stored records unchanged, so two same-signature creates
yield one success and one Conflict.  In the access-token collection the
signature index is hashed and non-unique, so the second create succeeds
as long as its id is fresh. -/
theorem create_same_signature_conflict_outside_access_tokens :
    (∀ (now : Int) (genId entityName : String) (coll : List Request) (request : Request),
      signatureUnique entityName = true →
      (∃ x ∈ coll, x.signature = (applyDefaults now genId request).signature) →
      RequestManager.Create now genId entityName coll request =
        (some Err.conflict, none, coll)) ∧
    signatureUnique EntityAccessTokens = false ∧
    (∀ (now : Int) (genId : String) (coll : List Request) (request : Request),
      (∀ x ∈ coll, x.id ≠ (applyDefaults now genId request).id) →
      RequestManager.Create now genId EntityAccessTokens coll request =
        (none, some (applyDefaults now genId request),
          coll ++ [applyDefaults now genId request])) := by
  refine ⟨?_, by decide, ?_⟩
  · intro now genId entityName coll request hu ⟨x, hx, hsig⟩
    have hviol : uniqueKeyViolation entityName coll (applyDefaults now genId request) = true := by
      unfold uniqueKeyViolation
      rw [List.any_eq_true]
      exact ⟨x, hx, by simp [hu, hsig]⟩
    simp [RequestManager.Create, hviol]
  · intro now genId coll request hids
    have hviol : uniqueKeyViolation EntityAccessTokens coll (applyDefaults now genId request) = false := by
      rw [Bool.eq_false_iff]
      intro hc
      obtain ⟨x, hx, hxp⟩ := List.any_eq_true.mp hc
      have hsu : signatureUnique EntityAccessTokens = false := by decide
      rw [hsu] at hxp
      simp only [Bool.false_and, Bool.or_false, beq_iff_eq] at hxp
      exact hids x hx hxp
    simp [RequestManager.Create, hviol]

/-- Witness for claim C2 (amended): In the refresh-token collection (unique
signature index), a create whose signature "sig" is already stored
fails with Conflict and leaves the collection unchanged. -/
theorem create_same_signature_conflict_witness :
    signatureUnique EntityRefreshTokens = true ∧
    RequestManager.Create 200 "g2" EntityRefreshTokens
      [{ id := "1", createTime := 100, updateTime := 0, requestedAt := 100,
         signature := "sig", clientID := "c", userID := "u", requestedScope := [],
         grantedScope := [], requestedAudience := [], grantedAudience := [], form := [],
         active := true, session := [] }]
      { id := "2", createTime := 200, updateTime := 0, requestedAt := 200,
        signature := "sig", clientID := "c", userID := "u", requestedScope := [],
        grantedScope := [], requestedAudience := [], grantedAudience := [], form := [],
        active := true, session := [] } =
      (some Err.conflict, none,
        [{ id := "1", createTime := 100, updateTime := 0, requestedAt := 100,
           signature := "sig", clientID := "c", userID := "u", requestedScope := [],
           grantedScope := [], requestedAudience := [], grantedAudience := [], form := [],
           active := true, session := [] }]) := by
  constructor
  · decide
  · exact create_same_signature_conflict_outside_access_tokens.1 200 "g2"
      EntityRefreshTokens _ _ (by decide)
      ⟨{ id := "1", createTime := 100, updateTime := 0, requestedAt := 100,
         signature := "sig", clientID := "c", userID := "u", requestedScope := [],
         grantedScope := [], requestedAudience := [], grantedAudience := [], form := [],
         active := true, session := [] }, by simp, by decide⟩

/-- Counterexample to claim C6: The claim "Create fails with Conflict when
a record with the same id or signature already exists in that
collection" fails in the access-token collection: with a record of
signature "dup" stored, creating a second record with signature "dup"
(and a fresh id) succeeds rather than failing with Conflict. -/
theorem create_conflict_clause_fails_for_access_tokens :
    (RequestManager.Create 11 "gen" EntityAccessTokens
        [{ id := "a", createTime := 10, updateTime := 0, requestedAt := 10,
           signature := "dup", clientID := "c", userID := "u", requestedScope := [],
           grantedScope := [], requestedAudience := [], grantedAudience := [], form := [],
           active := true, session := [] }]
        { id := "b", createTime := 11, updateTime := 0, requestedAt := 11,
          signature := "dup", clientID := "c", userID := "u", requestedScope := [],
          grantedScope := [], requestedAudience := [], grantedAudience := [], form := [],
          active := true, session := [] }).1 ≠ some Err.conflict := by
  decide

/-- Claim C6 (amended): `Create` assigns a generated id when the supplied
id is empty, stamps `createTime` / `requestedAt` with the current time
when they are zero, keeps caller-supplied non-empty values, and never
touches the signature (conjuncts 1–7); it fails with Conflict exactly
when a stored record has the same (defaulted) id or — in collections
with a unique signature index, i.e. all but access tokens — the same
signature (conjunct 8); otherwise the defaulted record is persisted and
returned (conjunct 9). -/
theorem create_defaults_and_conflict_condition :
    (∀ (now : Int) (genId : String) (request : Request), request.id ≠ "" →
      (applyDefaults now genId request).id = request.id) ∧
    (∀ (now : Int) (genId : String) (request : Request), request.id = "" →
      (applyDefaults now genId request).id = genId) ∧
    (∀ (now : Int) (genId : String) (request : Request), request.createTime ≠ 0 →
      (applyDefaults now genId request).createTime = request.createTime) ∧
    (∀ (now : Int) (genId : String) (request : Request), request.createTime = 0 →
      (applyDefaults now genId request).createTime = now) ∧
    (∀ (now : Int) (genId : String) (request : Request), request.requestedAt ≠ 0 →
      (applyDefaults now genId request).requestedAt = request.requestedAt) ∧
    (∀ (now : Int) (genId : String) (request : Request), request.requestedAt = 0 →
      (applyDefaults now genId request).requestedAt = now) ∧
    (∀ (now : Int) (genId : String) (request : Request),
      (applyDefaults now genId request).signature = request.signature) ∧
    (∀ (now : Int) (genId entityName : String) (coll : List Request) (request : Request),
      (RequestManager.Create now genId entityName coll request).1 = some Err.conflict ↔
        ∃ x ∈ coll, x.id = (applyDefaults now genId request).id ∨
          (signatureUnique entityName = true ∧
            x.signature = (applyDefaults now genId request).signature)) ∧
    (∀ (now : Int) (genId entityName : String) (coll : List Request) (request : Request),
      (RequestManager.Create now genId entityName coll request).1 = none →
      RequestManager.Create now genId entityName coll request =
        (none, some (applyDefaults now genId request),
          coll ++ [applyDefaults now genId request])) := by
  refine ⟨?_, ?_, ?_, ?_, ?_, ?_, ?_, ?_, ?_⟩
  · intro now genId request h
    rw [applyDefaults_spec]
    simp [h]
  · intro now genId request h
    rw [applyDefaults_spec]
    simp [h]
  · intro now genId request h
    rw [applyDefaults_spec]
    simp [h]
  · intro now genId request h
    rw [applyDefaults_spec]
    simp [h]
  · intro now genId request h
    rw [applyDefaults_spec]
    simp [h]
  · intro now genId request h
    rw [applyDefaults_spec]
    simp [h]
  · intro now genId request
    rw [applyDefaults_spec]
  · intro now genId entityName coll request
    simp only [RequestManager.Create]
    by_cases hviol : uniqueKeyViolation entityName coll (applyDefaults now genId request) = true
    · rw [hviol]
      simp only [if_true, true_iff]
      obtain ⟨x, hx, hxp⟩ := List.any_eq_true.mp hviol
      refine ⟨x, hx, ?_⟩
      rcases Bool.or_eq_true _ _ ▸ hxp with h | h
      · exact Or.inl (by simpa using h)
      · obtain ⟨h1, h2⟩ := Bool.and_eq_true _ _ ▸ h
        exact Or.inr ⟨h1, by simpa using h2⟩
    · rw [Bool.not_eq_true] at hviol
      rw [hviol]
      simp only [Bool.false_eq_true, if_false]
      constructor
      · intro hc; cases hc
      · intro ⟨x, hx, hor⟩
        exfalso
        have : uniqueKeyViolation entityName coll (applyDefaults now genId request) = true := by
          unfold uniqueKeyViolation
          rw [List.any_eq_true]
          refine ⟨x, hx, ?_⟩
          rcases hor with h | ⟨h1, h2⟩
          · simp [h]
          · simp [h1, h2]
        rw [this] at hviol; cases hviol
  · intro now genId entityName coll request h
    simp only [RequestManager.Create] at h ⊢
    by_cases hviol : uniqueKeyViolation entityName coll (applyDefaults now genId request) = true
    · rw [hviol] at h; cases h
    · rw [Bool.not_eq_true] at hviol
      rw [hviol]
      rfl

/-- Witness for claim C6 (amended): A concrete create in the PKCE collection:
an empty id is replaced by the generated one, zero timestamps are
stamped with `now`, and with no same-id/same-signature record stored the
create succeeds and persists the defaulted record. -/
theorem create_defaults_witness :
    ((applyDefaults 42 "gen-1"
        { id := "", createTime := 0, updateTime := 0, requestedAt := 0, signature := "s9",
          clientID := "c", userID := "u", requestedScope := [], grantedScope := [],
          requestedAudience := [], grantedAudience := [], form := [], active := true,
          session := [] }).id = "gen-1") ∧
    ((RequestManager.Create 42 "gen-1" EntityPKCESessions []
        { id := "", createTime := 0, updateTime := 0, requestedAt := 0, signature := "s9",
          clientID := "c", userID := "u", requestedScope := [], grantedScope := [],
          requestedAudience := [], grantedAudience := [], form := [], active := true,
          session := [] }).1 = some Err.conflict ↔
      ∃ x ∈ ([] : List Request), x.id = (applyDefaults 42 "gen-1"
          { id := "", createTime := 0, updateTime := 0, requestedAt := 0, signature := "s9",
            clientID := "c", userID := "u", requestedScope := [], grantedScope := [],
            requestedAudience := [], grantedAudience := [], form := [], active := true,
            session := [] }).id ∨
        (signatureUnique EntityPKCESessions = true ∧
          x.signature = (applyDefaults 42 "gen-1"
            { id := "", createTime := 0, updateTime := 0, requestedAt := 0, signature := "s9",
              clientID := "c", userID := "u", requestedScope := [], grantedScope := [],
              requestedAudience := [], grantedAudience := [], form := [], active := true,
              session := [] }).signature)) := by
  constructor
  · exact create_defaults_and_conflict_condition.2.1 42 "gen-1"
      { id := "", createTime := 0, updateTime := 0, requestedAt := 0, signature := "s9",
        clientID := "c", userID := "u", requestedScope := [], grantedScope := [],
        requestedAudience := [], grantedAudience := [], form := [], active := true,
        session := [] } rfl
  · exact (create_defaults_and_conflict_condition.2.2.2.2.2.2.2.1) 42 "gen-1"
      EntityPKCESessions []
      { id := "", createTime := 0, updateTime := 0, requestedAt := 0, signature := "s9",
        clientID := "c", userID := "u", requestedScope := [], grantedScope := [],
        requestedAudience := [], grantedAudience := [], form := [], active := true,
        session := [] }

/-- Claim C7: `Update(collection, id, request)` forcibly overwrites the
id of the stored record with the id parameter and refreshes `updateTime` (on
success the returned and stored record is the supplied one with
`id := requestID` and `updateTime := now`, conjunct 3); it fails with
NotFound exactly when no stored record matches `requestID`
(conjunct 1); and — among collections with duplicate-free ids — it
fails with Conflict exactly when the collection has a unique signature
index and a DIFFERENT record already holds the signature of the replacement
(conjunct 2). -/
theorem update_forces_id_and_reports_notFound_conflict :
    (∀ (now : Int) (entityName : String) (coll : List Request)
        (requestID : String) (ur : Request),
      (RequestManager.Update now entityName coll requestID ur).1 = some Err.notFound ↔
        ∀ r ∈ coll, r.id ≠ requestID) ∧
    (∀ (now : Int) (entityName : String) (coll : List Request)
        (requestID : String) (ur : Request),
      (coll.map Request.id).Nodup →
      (∃ r ∈ coll, r.id = requestID) →
      ((RequestManager.Update now entityName coll requestID ur).1 = some Err.conflict ↔
        (signatureUnique entityName = true ∧
          ∃ x ∈ coll, x.id ≠ requestID ∧ x.signature = ur.signature))) ∧
    (∀ (now : Int) (entityName : String) (coll : List Request)
        (requestID : String) (ur : Request),
      (RequestManager.Update now entityName coll requestID ur).1 = none →
      (RequestManager.Update now entityName coll requestID ur).2.1 =
          some { ur with id := requestID, updateTime := now } ∧
        { ur with id := requestID, updateTime := now } ∈
          (RequestManager.Update now entityName coll requestID ur).2.2) := by
  refine ⟨?_, ?_, ?_⟩
  · intro now entityName coll requestID ur
    simp only [RequestManager.Update]
    cases hs : splitFirst (fun r => r.id == requestID) coll with
    | none =>
      dsimp only
      constructor
      · intro _ r hr he
        have := (splitFirst_eq_none_iff _ coll).mp hs r hr
        simp only [he] at this
        simp at this
      · intro _; rfl
    | some t =>
      obtain ⟨pre, y, post⟩ := t
      obtain ⟨heq, hy, _⟩ := splitFirst_spec _ coll pre y post hs
      have hyid : y.id = requestID := by simpa using hy
      have hymem : y ∈ coll := heq ▸ List.mem_append.mpr (Or.inr (List.mem_cons_self y post))
      dsimp only
      constructor
      · intro hc
        by_cases hany : ((pre ++ post).any fun x => x.id == requestID ||
            (signatureUnique entityName && x.signature == ur.signature)) = true
        · rw [if_pos hany] at hc
          simp at hc
        · rw [if_neg hany] at hc
          simp at hc
      · intro hall
        exact absurd hyid (hall y hymem)
  · intro now entityName coll requestID ur hnodup hex
    obtain ⟨r, hr, hrid⟩ := hex
    obtain ⟨pre, y, post, hs⟩ :=
      splitFirst_isSome_of_mem (fun z => z.id == requestID) coll r hr (by simp [hrid])
    obtain ⟨heq, hy, _⟩ := splitFirst_spec _ coll pre y post hs
    have hyid : y.id = requestID := by simpa using hy
    have hothers : ∀ x, x ∈ pre ++ post → x.id ≠ requestID := by
      intro x hx
      have := nodup_map_split Request.id pre y post (heq ▸ hnodup) x hx
      rw [hyid] at this
      exact this
    simp only [RequestManager.Update, hs]
    dsimp only
    constructor
    · intro hc
      by_cases hany : ((pre ++ post).any fun x => x.id == requestID ||
          (signatureUnique entityName && x.signature == ur.signature)) = true
      · obtain ⟨x, hx, hxp⟩ := List.any_eq_true.mp hany
        rcases Bool.or_eq_true _ _ ▸ hxp with h | h
        · exact absurd (by simpa using h) (hothers x hx)
        · obtain ⟨h1, h2⟩ := Bool.and_eq_true _ _ ▸ h
          exact ⟨h1, x, heq ▸ mem_of_mem_splitParts hx, hothers x hx, by simpa using h2⟩
      · rw [if_neg hany] at hc
        simp at hc
    · intro hcond
      obtain ⟨hsu, x, hx, hxid, hxsig⟩ := hcond
      have hxmem : x ∈ pre ++ post := by
        apply mem_splitParts_of_ne (heq ▸ hx)
        intro hxy
        rw [hxy] at hxid
        exact hxid hyid
      have hany : ((pre ++ post).any fun z => z.id == requestID ||
          (signatureUnique entityName && z.signature == ur.signature)) = true := by
        rw [List.any_eq_true]
        exact ⟨x, hxmem, by simp [hsu, hxsig]⟩
      rw [if_pos hany]
  · intro now entityName coll requestID ur h
    simp only [RequestManager.Update] at h ⊢
    revert h
    cases hs : splitFirst (fun r => r.id == requestID) coll with
    | none =>
      intro h
      dsimp only at h
      cases h
    | some t =>
      obtain ⟨pre, y, post⟩ := t
      intro h
      dsimp only at h ⊢
      by_cases hany : ((pre ++ post).any fun x => x.id == requestID ||
          (signatureUnique entityName && x.signature == ur.signature)) = true
      · rw [if_pos hany] at h
        dsimp only at h
        cases h
      · rw [if_neg hany]
        exact ⟨rfl, List.mem_append.mpr (Or.inr (List.mem_cons_self _ post))⟩

/-- Witness for claim C7: A concrete update in the authorization-code
collection: updating id "k1" with a record claiming id "evil" succeeds,
and the stored/returned record carries id "k1" and `updateTime = 99`. -/
theorem update_forces_id_witness :
    ((RequestManager.Update 99 EntityAuthorizationCodes
        [{ id := "k1", createTime := 1, updateTime := 0, requestedAt := 1, signature := "sg",
           clientID := "c", userID := "u", requestedScope := [], grantedScope := [],
           requestedAudience := [], grantedAudience := [], form := [], active := true,
           session := [] }] "k1"
        { id := "evil", createTime := 1, updateTime := 0, requestedAt := 1, signature := "sg",
          clientID := "c", userID := "u", requestedScope := [], grantedScope := [],
          requestedAudience := [], grantedAudience := [], form := [], active := false,
          session := [] }).1 = none) ∧
    (RequestManager.Update 99 EntityAuthorizationCodes
        [{ id := "k1", createTime := 1, updateTime := 0, requestedAt := 1, signature := "sg",
           clientID := "c", userID := "u", requestedScope := [], grantedScope := [],
           requestedAudience := [], grantedAudience := [], form := [], active := true,
           session := [] }] "k1"
        { id := "evil", createTime := 1, updateTime := 0, requestedAt := 1, signature := "sg",
          clientID := "c", userID := "u", requestedScope := [], grantedScope := [],
          requestedAudience := [], grantedAudience := [], form := [], active := false,
          session := [] }).2.1 =
      some { id := "k1", createTime := 1, updateTime := 99, requestedAt := 1, signature := "sg",
             clientID := "c", userID := "u", requestedScope := [], grantedScope := [],
             requestedAudience := [], grantedAudience := [], form := [], active := false,
             session := [] } := by
  constructor
  · decide
  · exact ((update_forces_id_and_reports_notFound_conflict.2.2) 99 EntityAuthorizationCodes
      [{ id := "k1", createTime := 1, updateTime := 0, requestedAt := 1, signature := "sg",
         clientID := "c", userID := "u", requestedScope := [], grantedScope := [],
         requestedAudience := [], grantedAudience := [], form := [], active := true,
         session := [] }] "k1"
      { id := "evil", createTime := 1, updateTime := 0, requestedAt := 1, signature := "sg",
        clientID := "c", userID := "u", requestedScope := [], grantedScope := [],
        requestedAudience := [], grantedAudience := [], form := [], active := false,
        session := [] } (by decide)).1

/-- Successful hydration: when the session bytes decode and the client
resolves, `ToRequest` assembles the request from the stored fields. -/
theorem toRequest_ok (un : Unmarshal) (clients : List Client) (r : Request) (t : Template)
    (s : SessionData) (c : Client)
    (hun : un r.session t = some s) (hc : GetClient clients r.clientID = Except.ok c) :
    Request.ToRequest un clients r (some t) = Except.ok
      { client := c, session := some s, id := r.id, requestedAt := r.requestedAt,
        requestedScope := r.requestedScope, grantedScope := r.grantedScope,
        form := r.form, requestedAudience := r.requestedAudience,
        grantedAudience := r.grantedAudience } := by
  simp [Request.ToRequest, hun, hc]

/-- Claim C3: For an authorization-code record stored with `active = true`
(in a collection with duplicate-free ids and signatures, as enforced by
the unique indexes) whose session decodes and whose client resolves:
the first `GetAuthorizeCodeSession` returns the hydrated request with no
error (conjunct 1); `InvalidateAuthorizeCodeSession` succeeds, and on
the resulting collection every `GetAuthorizeCodeSession` returns the
`InvalidatedCode` error TOGETHER WITH the (non-nil) hydrated request
(conjunct 2); and `InvalidateAuthorizeCodeSession` fails with NotFound
for a code matching no stored record (conjunct 3). -/
theorem authorize_code_single_use
    (now : Int) (un : Unmarshal) (clients : List Client) (coll : List Request)
    (code : String) (req : Request) (tmpl : Template) (s : SessionData) (cl : Client)
    (h1 : coll.find? (fun r => r.signature == code) = some req)
    (h2 : req.active = true)
    (h3 : un req.session tmpl = some s)
    (h4 : GetClient clients req.clientID = Except.ok cl)
    (h5 : (coll.map Request.id).Nodup)
    (h6 : (coll.map Request.signature).Nodup) :
    RequestManager.GetAuthorizeCodeSession un clients coll code (some tmpl) =
      (some { client := cl, session := some s, id := req.id, requestedAt := req.requestedAt,
              requestedScope := req.requestedScope, grantedScope := req.grantedScope,
              form := req.form, requestedAudience := req.requestedAudience,
              grantedAudience := req.grantedAudience }, none) ∧
    (∃ coll2, RequestManager.InvalidateAuthorizeCodeSession now coll code = (none, coll2) ∧
      RequestManager.GetAuthorizeCodeSession un clients coll2 code (some tmpl) =
        (some { client := cl, session := some s, id := req.id, requestedAt := req.requestedAt,
                requestedScope := req.requestedScope, grantedScope := req.grantedScope,
                form := req.form, requestedAudience := req.requestedAudience,
                grantedAudience := req.grantedAudience }, some Err.invalidatedCode)) ∧
    (∀ code2, (∀ r ∈ coll, r.signature ≠ code2) →
      RequestManager.InvalidateAuthorizeCodeSession now coll code2 =
        (some Err.notFound, coll)) := by
  have hreqmem : req ∈ coll := List.mem_of_find?_eq_some h1
  have hreqsig : req.signature = code := by simpa using List.find?_some h1
  refine ⟨?_, ?_, ?_⟩
  · unfold RequestManager.GetAuthorizeCodeSession RequestManager.GetBySignature
    rw [h1]
    dsimp only
    rw [toRequest_ok un clients req tmpl s cl h3 h4]
    simp [h2]
  · -- Invalidation succeeds and the invalidated record is observed.
    obtain ⟨pre, y, post, hs⟩ :=
      splitFirst_isSome_of_mem (fun z => z.id == req.id) coll req hreqmem (by simp)
    obtain ⟨heq, hy, _⟩ := splitFirst_spec _ coll pre y post hs
    have hymem : y ∈ coll := heq ▸ List.mem_append.mpr (Or.inr (List.mem_cons_self y post))
    have hyreq : y = req :=
      List.inj_on_of_nodup_map h5 hymem hreqmem (by simpa using hy)
    subst hyreq
    have hidne : ∀ x, x ∈ pre ++ post → x.id ≠ y.id :=
      fun x hx => nodup_map_split Request.id pre y post (heq ▸ h5) x hx
    have hsigne : ∀ x, x ∈ pre ++ post → x.signature ≠ y.signature :=
      fun x hx => nodup_map_split Request.signature pre y post (heq ▸ h6) x hx
    have hany : ((pre ++ post).any fun x => x.id == y.id ||
        (signatureUnique EntityAuthorizationCodes &&
          x.signature == y.signature)) = true → False := by
      intro hc
      obtain ⟨x, hx, hxp⟩ := List.any_eq_true.mp hc
      rcases Bool.or_eq_true _ _ ▸ hxp with h | h
      · exact hidne x hx (by simpa using h)
      · obtain ⟨_, h2x⟩ := Bool.and_eq_true _ _ ▸ h
        exact hsigne x hx (by simpa using h2x)
    have hupd : RequestManager.Update now EntityAuthorizationCodes coll y.id
        { y with updateTime := now, active := false } =
        (none, some { y with id := y.id, updateTime := now, active := false },
          pre ++ { y with id := y.id, updateTime := now, active := false } :: post) := by
      simp only [RequestManager.Update, hs]
      rw [if_neg (fun hc => hany (by simpa using hc))]
    refine ⟨pre ++ ({ y with updateTime := now, active := false } : Request) :: post, ?_, ?_⟩
    · unfold RequestManager.InvalidateAuthorizeCodeSession RequestManager.GetBySignature
      rw [h1]
      dsimp only
      rw [hupd]
    · have hfind : (pre ++ { y with updateTime := now, active := false } :: post).find?
          (fun r => r.signature == code) =
          some { y with updateTime := now, active := false } := by
        apply find?_append_cons
        · intro x hx
          have := hsigne x (List.mem_append.mpr (Or.inl hx))
          simp only [beq_eq_false_iff_ne, ne_eq]
          rw [hreqsig] at this
          exact this
        · simp [hreqsig]
      unfold RequestManager.GetAuthorizeCodeSession RequestManager.GetBySignature
      rw [hfind]
      dsimp only
      rw [toRequest_ok un clients { y with updateTime := now, active := false } tmpl s cl
        (by simpa using h3) (by simpa using h4)]
      simp
  · intro code2 hnone
    have hfind : coll.find? (fun r => r.signature == code2) = none := by
      rw [List.find?_eq_none]
      intro r hr
      simp [hnone r hr]
    unfold RequestManager.InvalidateAuthorizeCodeSession RequestManager.GetBySignature
    rw [hfind]

/-- Witness for claim C3: A concrete single-record collection: the stored
code "code-1" is fetched successfully, then invalidated, after which the
fetch returns `InvalidatedCode` together with the hydrated request. -/
theorem authorize_code_single_use_witness :
    (([{ id := "r1", createTime := 1, updateTime := 0, requestedAt := 2, signature := "code-1",
         clientID := "c1", userID := "u", requestedScope := ["read"], grantedScope := ["read"],
         requestedAudience := [], grantedAudience := [], form := [], active := true,
         session := [3] }] : List Request).find? (fun r => r.signature == "code-1") =
      some { id := "r1", createTime := 1, updateTime := 0, requestedAt := 2, signature := "code-1",
             clientID := "c1", userID := "u", requestedScope := ["read"], grantedScope := ["read"],
             requestedAudience := [], grantedAudience := [], form := [], active := true,
             session := [3] }) ∧
    RequestManager.GetAuthorizeCodeSession
      (fun b t => if b = [3] ∧ t = "tmpl" then some "sess" else none)
      [{ id := "c1" }]
      [{ id := "r1", createTime := 1, updateTime := 0, requestedAt := 2, signature := "code-1",
         clientID := "c1", userID := "u", requestedScope := ["read"], grantedScope := ["read"],
         requestedAudience := [], grantedAudience := [], form := [], active := true,
         session := [3] }]
      "code-1" (some "tmpl") =
      (some { client := { id := "c1" }, session := some "sess", id := "r1", requestedAt := 2,
              requestedScope := ["read"], grantedScope := ["read"], form := [],
              requestedAudience := [], grantedAudience := [] }, none) ∧
    (∃ coll2, RequestManager.InvalidateAuthorizeCodeSession 77
        [{ id := "r1", createTime := 1, updateTime := 0, requestedAt := 2, signature := "code-1",
           clientID := "c1", userID := "u", requestedScope := ["read"], grantedScope := ["read"],
           requestedAudience := [], grantedAudience := [], form := [], active := true,
           session := [3] }] "code-1" = (none, coll2) ∧
      RequestManager.GetAuthorizeCodeSession
        (fun b t => if b = [3] ∧ t = "tmpl" then some "sess" else none)
        [{ id := "c1" }] coll2 "code-1" (some "tmpl") =
        (some { client := { id := "c1" }, session := some "sess", id := "r1", requestedAt := 2,
                requestedScope := ["read"], grantedScope := ["read"], form := [],
                requestedAudience := [], grantedAudience := [] }, some Err.invalidatedCode)) := by
  have h := authorize_code_single_use 77
    (fun b t => if b = [3] ∧ t = "tmpl" then some "sess" else none)
    [{ id := "c1" }]
    [{ id := "r1", createTime := 1, updateTime := 0, requestedAt := 2, signature := "code-1",
       clientID := "c1", userID := "u", requestedScope := ["read"], grantedScope := ["read"],
       requestedAudience := [], grantedAudience := [], form := [], active := true,
       session := [3] }]
    "code-1"
    { id := "r1", createTime := 1, updateTime := 0, requestedAt := 2, signature := "code-1",
      clientID := "c1", userID := "u", requestedScope := ["read"], grantedScope := ["read"],
      requestedAudience := [], grantedAudience := [], form := [], active := true,
      session := [3] }
    "tmpl" "sess" { id := "c1" }
    (by rfl) (by rfl) (by rfl) (by rfl) (by decide) (by decide)
  exact ⟨by rfl, h.1, h.2.1⟩
